import Mathlib

/-!
Verification of the YOLOv8-Pose tf.js detection pipeline
(`src/utils/detect.js`, here `src/unnamed/part_000`, plus its caller
`src/App.jsx`).

The embedding translates the pipeline into Lean:
* images are pixel grids over `ℚ` (tf.js tensors hold 32-bit floats; the
  claims under verification are about shapes, index arithmetic, ordering
  of effects and exact rational arithmetic, so `ℚ` is used throughout);
* `preprocess`, the box/score/landmark decoding and the per-frame FPS
  accounting are translated statement-by-statement from the source;
* the NMS suppressor is delegated by the source to the external
  `tf.image.nonMaxSuppressionAsync`; its algorithm is modelled from the
  specification (§4.3) and the call-site parameters are taken from the
  source;
* the control flow of `detect` / `detectFrame` / `detectVideo`
  (scoping, disposal, scheduling, FPS publication) is embedded as event
  traces.
-/

namespace YoloPose

/-- A source frame / image: a pixel grid of `height × width × 3` channel
values. `pix` is total; only indices `y < height`, `x < width` are
meaningful (this mirrors tf.js, where out-of-range reads never occur). -/
structure Image where
  height : ℕ
  width : ℕ
  pix : ℕ → ℕ → Fin 3 → ℚ

/-- A 4-dimensional tensor, recording its shape and entries, as returned by
`preprocess` (`expandDims(0)` of a `height × width × 3` image). -/
structure Tensor4 where
  d0 : ℕ
  d1 : ℕ
  d2 : ℕ
  d3 : ℕ
  val : ℕ → ℕ → ℕ → ℕ → ℚ

/-- The shape list `[d0, d1, d2, d3]` of a `Tensor4`. -/
def Tensor4.shape (t : Tensor4) : List ℕ := [t.d0, t.d1, t.d2, t.d3]

/-- The pad call `img.pad([[0, maxSize - h], [0, maxSize - w], [0, 0]])`
of `preprocess` (src/unnamed/part_000 lines 22–26): pad with zero-valued
pixels on the bottom and on the right only, up to
`maxSize = max(w, h)`. -/
def padToSquare (img : Image) : Image :=
  let maxSize := max img.width img.height
  { height := img.height + (maxSize - img.height)
    width := img.width + (maxSize - img.width)
    pix := fun y x c =>
      if y < img.height ∧ x < img.width then img.pix y x c else 0 }

/-- The resize `tf.image.resizeBilinear(img, [newHeight, newWidth])` with
the tf.js
defaults `alignCorners = false`, `halfPixelCenters = false`: the source
position of output row `y` is `y * inHeight / newHeight`, the two
contributing rows are its floor and its ceiling clamped to the last row,
blended by the fractional part; columns likewise. -/
def resizeBilinear (img : Image) (newHeight newWidth : ℕ) : Image :=
  { height := newHeight
    width := newWidth
    pix := fun y x c =>
      let srcY : ℚ := (y : ℚ) * (img.height : ℚ) / (newHeight : ℚ)
      let srcX : ℚ := (x : ℚ) * (img.width : ℚ) / (newWidth : ℚ)
      let y0 : ℕ := ⌊srcY⌋.toNat
      let y1 : ℕ := min (img.height - 1) ⌈srcY⌉.toNat
      let x0 : ℕ := ⌊srcX⌋.toNat
      let x1 : ℕ := min (img.width - 1) ⌈srcX⌉.toNat
      let dy : ℚ := srcY - (y0 : ℚ)
      let dx : ℚ := srcX - (x0 : ℚ)
      let top : ℚ := img.pix y0 x0 c * (1 - dx) + img.pix y0 x1 c * dx
      let bot : ℚ := img.pix y1 x0 c * (1 - dx) + img.pix y1 x1 c * dx
      top * (1 - dy) + bot * dy }

/-- The preprocessor `preprocess(source, modelWidth, modelHeight)`
(src/unnamed/part_000
lines 13–38): pad the frame to a `max(w,h)` square (bottom/right only),
record `xRatio = maxSize / w` and `yRatio = maxSize / h`, resize the
square with `resizeBilinear(imgPadded, [modelWidth, modelHeight])` — whose
size argument is `[newHeight, newWidth]` — divide by 255 and
`expandDims(0)`. Returns `[input, xRatio, yRatio]`. -/
def preprocess (source : Image) (modelWidth modelHeight : ℕ) :
    Tensor4 × ℚ × ℚ :=
  let img := source
  let maxSize := max img.width img.height
  let imgPadded := padToSquare img
  let xRatio : ℚ := (maxSize : ℚ) / (img.width : ℚ)
  let yRatio : ℚ := (maxSize : ℚ) / (img.height : ℚ)
  let resized := resizeBilinear imgPadded modelWidth modelHeight
  let input : Tensor4 :=
    { d0 := 1, d1 := resized.height, d2 := resized.width, d3 := 3
      val := fun _ y x c =>
        if h : c < 3 then resized.pix y x ⟨c, h⟩ / 255 else 0 }
  (input, xRatio, yRatio)

/-- The transpose `res.transpose([0, 2, 1])` (src/unnamed/part_000 line
54) with the
batch dimension dropped: the raw output is indexed `(attribute,
detection)`, the transposed result `(detection, attribute)`. -/
def transposeRes (raw : ℕ → ℕ → ℚ) : ℕ → ℕ → ℚ := fun det attr => raw attr det

/-- The per-detection box computation of `detect` (src/unnamed/part_000
lines 56–73): slices at attribute indices 2, 3, 0, 1 give `w`, `h` and
the centre; `x1 = cx - w/2`, `y1 = cy - h/2`; the concatenation emits
`(y1, x1, y1 + h, x1 + w)`. -/
def boxOf (attr : ℕ → ℚ) : ℚ × ℚ × ℚ × ℚ :=
  let w := attr 2
  let h := attr 3
  let x1 := attr 0 - w / 2
  let y1 := attr 1 - h / 2
  (y1, x1, y1 + h, x1 + w)

/-- The `boxes` tensor of `detect`: `boxOf` applied to each detection of
the transposed result. -/
def detectBoxes (trans : ℕ → ℕ → ℚ) : ℕ → ℚ × ℚ × ℚ × ℚ :=
  fun d => boxOf (trans d)

/-- The `scores` tensor of `detect` (src/unnamed/part_000 lines 75–78):
the slice at attribute index 4. -/
def detectScores (trans : ℕ → ℕ → ℚ) : ℕ → ℚ := fun d => trans d 4

/-- The `landmarks` tensor of `detect` (src/unnamed/part_000 lines
80–82): `slice([0, 0, 5], [-1, -1, -1])`, i.e. the flat block of
attributes from index 5 onward of one detection. -/
def landmarksOf (attr : ℕ → ℚ) : ℕ → ℚ := fun j => attr (5 + j)

/-- The per-detection effect of `tf.reshape(landmarks_data, [-1, 3, 17])`
(src/unnamed/part_000 line 91): each detection's 51 flat keypoint values
are cut into 3 groups of 17 consecutive values. -/
def landmarksReshaped (attr : ℕ → ℚ) : List (List ℚ) :=
  (List.range 3).map fun i =>
    (List.range 17).map fun j => landmarksOf attr (i * 17 + j)

/-- Modelled from the spec: the keypoint layout the spec prescribes for
the block handed to the rendering collaborator — 17 keypoints, each the
contiguous 3-value tuple `(x, y, visibility)`, i.e. a `[-1, 17, 3]`
reshape of the flat block. Stated only to be compared with
`landmarksReshaped`, the reshape the source performs. -/
def landmarksSpecReshape (attr : ℕ → ℚ) : List (List ℚ) :=
  (List.range 17).map fun k =>
    (List.range 3).map fun t => landmarksOf attr (k * 3 + t)

/-- The area of a box `(y1, x1, y2, x2)`, clamped at 0 per side. -/
def boxArea (b : ℚ × ℚ × ℚ × ℚ) : ℚ :=
  max 0 (b.2.2.1 - b.1) * max 0 (b.2.2.2 - b.2.1)

/-- The intersection area of two boxes. -/
def interArea (a b : ℚ × ℚ × ℚ × ℚ) : ℚ :=
  max 0 (min a.2.2.1 b.2.2.1 - max a.1 b.1) *
    max 0 (min a.2.2.2 b.2.2.2 - max a.2.1 b.2.1)

/-- Intersection over union of two boxes (0 when the union is empty). -/
def iou (a b : ℚ × ℚ × ℚ × ℚ) : ℚ :=
  let i := interArea a b
  let u := boxArea a + boxArea b - i
  if u ≤ 0 then 0 else i / u

/-- The candidate pool: each detection index paired with its box and
score, keeping exactly those with `scoreThreshold ≤ score` (the spec
discards `score < scoreThreshold`, an inclusive boundary). -/
def candidatesOf (boxes : List (ℚ × ℚ × ℚ × ℚ)) (scores : List ℚ)
    (scoreThr : ℚ) : List (ℕ × (ℚ × ℚ × ℚ × ℚ) × ℚ) :=
  ((List.range (min boxes.length scores.length)).map fun i =>
    (i, boxes.getD i (0, 0, 0, 0), scores.getD i 0)).filter
    fun c => scoreThr ≤ c.2.2

/-- Candidate order: strictly higher score first; ties resolved by the
original detection index (the spec's determinism requirement). -/
def scoreBefore (c d : ℕ × (ℚ × ℚ × ℚ × ℚ) × ℚ) : Prop :=
  d.2.2 < c.2.2 ∨ (c.2.2 = d.2.2 ∧ c.1 ≤ d.1)

instance (c d : ℕ × (ℚ × ℚ × ℚ × ℚ) × ℚ) : Decidable (scoreBefore c d) := by
  unfold scoreBefore
  infer_instance

/-- Insertion into a score-sorted candidate list. -/
def insertByScore (c : ℕ × (ℚ × ℚ × ℚ × ℚ) × ℚ) :
    List (ℕ × (ℚ × ℚ × ℚ × ℚ) × ℚ) → List (ℕ × (ℚ × ℚ × ℚ × ℚ) × ℚ)
  | [] => [c]
  | d :: ds =>
      if scoreBefore c d then c :: d :: ds else d :: insertByScore c ds

/-- Sorting the candidate pool by descending score, ties by index. -/
def sortByScore :
    List (ℕ × (ℚ × ℚ × ℚ × ℚ) × ℚ) → List (ℕ × (ℚ × ℚ × ℚ × ℚ) × ℚ)
  | [] => []
  | c :: cs => insertByScore c (sortByScore cs)

/-- The greedy selection loop: emit the best remaining candidate, drop
every candidate whose IoU with it exceeds `iouThr` (boxes at exactly
`iouThr` are retained, `>` not `≥`), stop after `maxOutputs` emissions
or when the pool empties. -/
def nmsLoop (iouThr : ℚ) :
    ℕ → List (ℕ × (ℚ × ℚ × ℚ × ℚ) × ℚ) → List ℕ
  | 0, _ => []
  | _, [] => []
  | Nat.succ n, c :: rest =>
      c.1 :: nmsLoop iouThr n (rest.filter fun d => iou c.2.1 d.2.1 ≤ iouThr)

/-- Modelled from the spec: the suppressor (§4.3). `detect` delegates
suppression to the external `tf.image.nonMaxSuppressionAsync`, whose
implementation is not part of this repository; the greedy NMS algorithm
is taken from the specification — score filter (inclusive at the
boundary), descending-score order with index tie-break, greedy selection
suppressing IoU strictly above the threshold, at most `maxOutputs`
emissions. -/
def nonMaxSuppression (boxes : List (ℚ × ℚ × ℚ × ℚ)) (scores : List ℚ)
    (maxOutputs : ℕ) (iouThr scoreThr : ℚ) : List ℕ :=
  nmsLoop iouThr maxOutputs (sortByScore (candidatesOf boxes scores scoreThr))

/-- The suppression call of `detect` (src/unnamed/part_000 line 84):
`tf.image.nonMaxSuppressionAsync(boxes, scores, 10, 0.45, 0.3)`. -/
def detectSuppress (boxes : List (ℚ × ℚ × ℚ × ℚ)) (scores : List ℚ) :
    List ℕ :=
  nonMaxSuppression boxes scores 10 (45 / 100) (3 / 10)

/-- JS `parseInt` applied to a finite number (as on src/unnamed/part_000
line 143): truncation toward zero. -/
def parseIntQ (q : ℚ) : ℤ := if 0 ≤ q then ⌊q⌋ else ⌈q⌉

/-- The constant `FPSUpdateMilliseconds = 1000` (src/unnamed/part_000
line 4). -/
def FPSUpdateMilliseconds : ℚ := 1000

/-- The mutable state of `detectVideo` (src/unnamed/part_000 lines
108–114): the inference-time accumulator, the inference counter, the
last publish timestamp and the currently displayed `fpsRef.innerHTML`
value. -/
structure FpsState where
  inferenceTimeSum : ℚ
  numInferences : ℕ
  lastFpsRefresh : ℚ
  fps : ℤ

/-- The per-frame accounting of `detectFrame` (src/unnamed/part_000
lines 126–144): accumulate `end - start`, bump the counter; if
`end - lastFpsRefresh ≥ FPSUpdateMilliseconds`, compute the average
inference time, reset both accumulators, set `lastFpsRefresh = end` and
publish `parseInt(1000.0 / averageInferenceTime)`. -/
def frameStep (s : FpsState) (startT endT : ℚ) : FpsState :=
  let sum := s.inferenceTimeSum + (endT - startT)
  let num := s.numInferences + 1
  if FPSUpdateMilliseconds ≤ endT - s.lastFpsRefresh then
    let averageInferenceTime := sum / (num : ℚ)
    { inferenceTimeSum := 0, numInferences := 0, lastFpsRefresh := endT
      fps := parseIntQ (1000 / averageInferenceTime) }
  else
    { s with inferenceTimeSum := sum, numInferences := num }

/-- Canvas and scheduling effects of one `detectFrame` tick. -/
inductive TickEv
  | clearRect (x y w h : ℕ)
  | runDetect
  | scheduleNext
deriving DecidableEq

/-- The tick structure of `detectFrame` (src/unnamed/part_000 lines
119–130): when `videoWidth === 0 && srcObject === null`, clear the
whole canvas (`clearRect(0, 0, canvas.width, canvas.height)`) and
return without scheduling anything; otherwise run `detect`, whose
completion callback requests the next animation frame. -/
def detectFrameTick (videoWidth : ℕ) (srcObjectIsNull : Bool)
    (canvasW canvasH : ℕ) : List TickEv :=
  if videoWidth = 0 ∧ srcObjectIsNull = true then
    [TickEv.clearRect 0 0 canvasW canvasH]
  else
    [TickEv.runDetect, TickEv.scheduleNext]

/-- The statements of a `detect` call (src/unnamed/part_000 lines
50–98), in source order, plus a marker for a thrown exception. -/
inductive DetEv
  | startScope
  | preprocessEv
  | executeEv
  | transposeEv
  | boxesEv
  | scoresEv
  | landmarksEv
  | nmsEv
  | gatherEv
  | reshapeEv
  | renderEv
  | disposeEv
  | callbackEv
  | endScope
  | thrown
deriving DecidableEq

/-- The statement order of `detect` on the unexceptional path:
`tf.engine().startScope()`, preprocess, model execution, transpose, the
three decoding blocks, NMS, the gathers, the keypoint reshape, render,
`tf.dispose([...])`, the completion callback and
`tf.engine().endScope()`. -/
def detectSteps : List DetEv :=
  [DetEv.startScope, DetEv.preprocessEv, DetEv.executeEv,
   DetEv.transposeEv, DetEv.boxesEv, DetEv.scoresEv, DetEv.landmarksEv,
   DetEv.nmsEv, DetEv.gatherEv, DetEv.reshapeEv, DetEv.renderEv,
   DetEv.disposeEv, DetEv.callbackEv, DetEv.endScope]

/-- The event trace of a `detect` call. `detect` contains no
try/catch/finally, so when step `e` throws, the statements before `e`
run, the exception replaces `e`, and every later statement —
`tf.dispose` and `tf.engine().endScope()` included — is skipped.
`none` is the unexceptional run. -/
def detectTrace : Option DetEv → List DetEv
  | none => detectSteps
  | some e => (detectSteps.takeWhile fun s => s ≠ e) ++ [DetEv.thrown]

/-- Events observable from `detectVideo`: a write to the FPS display and
the processing of one frame. -/
inductive VidEv
  | setFps (v : ℤ)
  | frameDetect
deriving DecidableEq

/-- Selector for events that are not the processing of a frame. -/
def VidEv.isNotDetect : VidEv → Bool
  | .frameDetect => false
  | _ => true

/-- The frame loop of `detectVideo`: each iteration processes one frame
(with its start and end timestamps), runs the `frameStep` accounting
and, exactly when a publish interval has elapsed, writes the new FPS
value to the display. -/
def frameLoop : FpsState → List (ℚ × ℚ) → List VidEv
  | _, [] => []
  | s, (startT, endT) :: rest =>
      let s' := frameStep s startT endT
      (VidEv.frameDetect ::
        (if FPSUpdateMilliseconds ≤ endT - s.lastFpsRefresh then
          [VidEv.setFps s'.fps]
        else [])) ++ frameLoop s' rest

/-- The event trace of `detectVideo` (src/unnamed/part_000 lines
107–148): zero the accumulators and `lastFpsRefresh`, write `0` to the
FPS display (`fpsRef.innerHTML = 0`), then run the frame loop. -/
def detectVideoTrace (frames : List (ℚ × ℚ)) : List VidEv :=
  VidEv.setFps 0 :: frameLoop ⟨0, 0, 0, 0⟩ frames

end YoloPose

namespace YoloPose

/-- A linear blend of two values in `[lo, hi]` with weight `t ∈ [0, 1]`
stays in `[lo, hi]`. -/
lemma lerp_mem (a b t lo hi : ℚ) (ha : lo ≤ a) (ha' : a ≤ hi)
    (hb : lo ≤ b) (hb' : b ≤ hi) (ht : 0 ≤ t) (ht' : t ≤ 1) :
    lo ≤ a * (1 - t) + b * t ∧ a * (1 - t) + b * t ≤ hi := by
  constructor <;> nlinarith

/-- A bilinear blend of four values in `[0, 255]` with weights in
`[0, 1]` stays in `[0, 255]`. -/
lemma bilerp_mem (a b c d t u : ℚ)
    (ha : 0 ≤ a ∧ a ≤ 255) (hb : 0 ≤ b ∧ b ≤ 255)
    (hc : 0 ≤ c ∧ c ≤ 255) (hd : 0 ≤ d ∧ d ≤ 255)
    (ht : 0 ≤ t ∧ t ≤ 1) (hu : 0 ≤ u ∧ u ≤ 1) :
    0 ≤ (a * (1 - t) + b * t) * (1 - u) + (c * (1 - t) + d * t) * u ∧
    (a * (1 - t) + b * t) * (1 - u) + (c * (1 - t) + d * t) * u ≤ 255 := by
  have h1 := lerp_mem a b t 0 255 ha.1 ha.2 hb.1 hb.2 ht.1 ht.2
  have h2 := lerp_mem c d t 0 255 hc.1 hc.2 hd.1 hd.2 ht.1 ht.2
  exact lerp_mem _ _ u 0 255 h1.1 h1.2 h2.1 h2.2 hu.1 hu.2

/-- The interpolation weight `q - ⌊q⌋.toNat` of a nonnegative source
position lies in `[0, 1]`. -/
lemma fract_weight_bounds (q : ℚ) (hq : 0 ≤ q) :
    0 ≤ q - ((⌊q⌋.toNat : ℕ) : ℚ) ∧ q - ((⌊q⌋.toNat : ℕ) : ℚ) ≤ 1 := by
  have hfl : (0 : ℤ) ≤ ⌊q⌋ := Int.floor_nonneg.mpr hq
  have hcast : ((⌊q⌋.toNat : ℕ) : ℚ) = (⌊q⌋ : ℚ) := by
    exact_mod_cast Int.toNat_of_nonneg hfl
  rw [hcast]
  constructor
  · have := Int.floor_le q
    linarith
  · have := Int.sub_one_lt_floor q
    linarith

/-- Bilinear resizing of an image whose pixel values all lie in
`[0, 255]` produces pixel values in `[0, 255]` (each output value is a
convex blend of four input values). -/
lemma resizeBilinear_pix_range (img : Image) (nh nw : ℕ)
    (hpix : ∀ y x c, 0 ≤ img.pix y x c ∧ img.pix y x c ≤ 255) :
    ∀ y x c, 0 ≤ (resizeBilinear img nh nw).pix y x c ∧
      (resizeBilinear img nh nw).pix y x c ≤ 255 := by
  intro y x c
  simp only [resizeBilinear]
  have hsrcY : (0 : ℚ) ≤ (y : ℚ) * (img.height : ℚ) / (nh : ℚ) := by
    positivity
  have hsrcX : (0 : ℚ) ≤ (x : ℚ) * (img.width : ℚ) / (nw : ℚ) := by
    positivity
  exact bilerp_mem _ _ _ _ _ _ (hpix _ _ c) (hpix _ _ c) (hpix _ _ c)
    (hpix _ _ c) (fract_weight_bounds _ hsrcX) (fract_weight_bounds _ hsrcY)

/-- Padding an image whose in-range pixels lie in `[0, 255]` gives an
image whose pixels all lie in `[0, 255]` (the pad band is 0). -/
lemma padToSquare_pix_range (img : Image)
    (hpix : ∀ y x c, y < img.height → x < img.width →
      0 ≤ img.pix y x c ∧ img.pix y x c ≤ 255) :
    ∀ y x c, 0 ≤ (padToSquare img).pix y x c ∧
      (padToSquare img).pix y x c ≤ 255 := by
  intro y x c
  simp only [padToSquare]
  by_cases h : y < img.height ∧ x < img.width
  · simpa [h] using hpix y x c h.1 h.2
  · simp [h]

/-- C1: for a frame with positive width and height, `preprocess` returns
ratios with `xRatio * w = yRatio * h = max(w, h)`, and the padded
intermediate `padToSquare` used by `preprocess` is a `max(w,h) × max(w,h)`
square that keeps the original pixels anchored at `(0,0)` and is
zero-valued on the padded band. -/
theorem preprocess_padding_and_ratios (img : Image) (mw mh : ℕ)
    (hw : 0 < img.width) (hh : 0 < img.height) :
    (preprocess img mw mh).2.1 * (img.width : ℚ) =
        (max img.width img.height : ℕ) ∧
    (preprocess img mw mh).2.2 * (img.height : ℚ) =
        (max img.width img.height : ℕ) ∧
    (padToSquare img).height = max img.width img.height ∧
    (padToSquare img).width = max img.width img.height ∧
    (∀ y x c, y < img.height → x < img.width →
      (padToSquare img).pix y x c = img.pix y x c) ∧
    (∀ y x c, img.height ≤ y ∨ img.width ≤ x →
      (padToSquare img).pix y x c = 0) := by
  have hw' : (img.width : ℚ) ≠ 0 := by positivity
  have hh' : (img.height : ℚ) ≠ 0 := by positivity
  refine ⟨?_, ?_, ?_, ?_, ?_, ?_⟩
  · simp only [preprocess]
    field_simp
  · simp only [preprocess]
    field_simp
  · simp only [padToSquare]
    omega
  · simp only [padToSquare]
    omega
  · intro y x c hy hx
    simp only [padToSquare]
    simp [hy, hx]
  · intro y x c hyx
    simp only [padToSquare]
    rcases hyx with hy | hx
    · simp [Nat.not_lt.mpr hy]
    · have : ¬ (y < img.height ∧ x < img.width) := by
        rintro ⟨-, h⟩; omega
      simp [this]

/-- Witness for C1 at a concrete 3-wide, 2-high frame. -/
theorem preprocess_padding_and_ratios_witness :
    (preprocess ⟨2, 3, fun _ _ _ => 7⟩ 4 4).2.1 * (3 : ℚ) = 3 ∧
    (preprocess ⟨2, 3, fun _ _ _ => 7⟩ 4 4).2.2 * (2 : ℚ) = 3 ∧
    (padToSquare ⟨2, 3, fun _ _ _ => 7⟩).height = 3 ∧
    (padToSquare ⟨2, 3, fun _ _ _ => 7⟩).width = 3 ∧
    (padToSquare ⟨2, 3, fun _ _ _ => 7⟩).pix 1 2 0 = 7 ∧
    (padToSquare ⟨2, 3, fun _ _ _ => 7⟩).pix 2 0 0 = 0 := by
  have h := preprocess_padding_and_ratios ⟨2, 3, fun _ _ _ => 7⟩ 4 4
    (by norm_num) (by norm_num)
  refine ⟨?_, ?_, ?_, ?_, ?_, ?_⟩
  · simpa using h.1
  · simpa using h.2.1
  · simpa using h.2.2.1
  · simpa using h.2.2.2.1
  · simpa using h.2.2.2.2.1 1 2 0 (by norm_num) (by norm_num)
  · simpa using h.2.2.2.2.2 2 0 0 (Or.inl (by norm_num))

/-- C3 (amended): `preprocess` returns a tensor of shape
`[1, modelWidth, modelHeight, 3]` — the source passes
`[modelWidth, modelHeight]` to `resizeBilinear`, whose size argument is
`[newHeight, newWidth]`, so the spatial dimensions come out as
`(modelWidth, modelHeight)`, not `(modelHeight, modelWidth)`; the two
agree exactly when the model input is square, which holds for the
deployed model. All values lie in `[0, 1]`: bilinear resize of the
zero-padded square keeps values in `[0, 255]` and the division by 255
maps them into `[0, 1]`. -/
theorem preprocess_tensor_shape_and_range (img : Image) (mw mh : ℕ)
    (hpix : ∀ y x c, y < img.height → x < img.width →
      0 ≤ img.pix y x c ∧ img.pix y x c ≤ 255) :
    (preprocess img mw mh).1.shape = [1, mw, mh, 3] ∧
    ∀ b y x c, 0 ≤ (preprocess img mw mh).1.val b y x c ∧
      (preprocess img mw mh).1.val b y x c ≤ 1 := by
  constructor
  · rfl
  · intro b y x c
    have hrange := resizeBilinear_pix_range (padToSquare img) mw mh
      (padToSquare_pix_range img hpix)
    simp only [preprocess]
    by_cases h : c < 3
    · simp only [h, dif_pos]
      constructor
      · have := (hrange y x ⟨c, h⟩).1
        positivity
      · have := (hrange y x ⟨c, h⟩).2
        linarith
    · simp [h]

/-- Witness for C3 (amended) at a concrete constant 1×1 frame and a
non-square model input `(modelWidth, modelHeight) = (2, 3)`. -/
theorem preprocess_tensor_shape_and_range_witness :
    (preprocess ⟨1, 1, fun _ _ _ => 7⟩ 2 3).1.shape = [1, 2, 3, 3] ∧
    0 ≤ (preprocess ⟨1, 1, fun _ _ _ => 7⟩ 2 3).1.val 0 0 0 0 ∧
    (preprocess ⟨1, 1, fun _ _ _ => 7⟩ 2 3).1.val 0 0 0 0 ≤ 1 := by
  have h := preprocess_tensor_shape_and_range ⟨1, 1, fun _ _ _ => 7⟩ 2 3
    (fun _ _ _ _ _ => ⟨by norm_num, by norm_num⟩)
  exact ⟨h.1, (h.2 0 0 0 0).1, (h.2 0 0 0 0).2⟩

/-- Counterexample to C3 as stated: with `(modelWidth, modelHeight) =
(2, 3)`, the tensor returned by `preprocess` has shape `[1, 2, 3, 3]`
= `[1, modelWidth, modelHeight, 3]`, not `[1, modelHeight, modelWidth,
3]` = `[1, 3, 2, 3]` as the claim requires. -/
theorem preprocess_tensor_shape_counterexample :
    (preprocess ⟨1, 1, fun _ _ _ => 0⟩ 2 3).1.shape = [1, 2, 3, 3] ∧
    (preprocess ⟨1, 1, fun _ _ _ => 0⟩ 2 3).1.shape ≠ [1, 3, 2, 3] := by
  constructor
  · rfl
  · intro h
    simp only [preprocess, resizeBilinear, Tensor4.shape] at h
    exact absurd (List.cons.injEq .. ▸ h) (by simp)

/-- C4: for every detection of the transposed raw output, the decoded box
reads `cx, cy, w, h` at attribute indices 0–3 and equals
`(cy - h/2, cx - w/2, (cy - h/2) + h, (cx - w/2) + w)`, i.e.
`(y1, x1, y2, x2)`; and whenever `w ≥ 0` and `h ≥ 0` the box satisfies
`y1 ≤ y2` and `x1 ≤ x2`. -/
theorem detect_boxes_corner_form (raw : ℕ → ℕ → ℚ) (d : ℕ) :
    detectBoxes (transposeRes raw) d =
      (raw 1 d - raw 3 d / 2, raw 0 d - raw 2 d / 2,
       raw 1 d - raw 3 d / 2 + raw 3 d, raw 0 d - raw 2 d / 2 + raw 2 d) ∧
    (0 ≤ raw 2 d → 0 ≤ raw 3 d →
      (detectBoxes (transposeRes raw) d).1 ≤
        (detectBoxes (transposeRes raw) d).2.2.1 ∧
      (detectBoxes (transposeRes raw) d).2.1 ≤
        (detectBoxes (transposeRes raw) d).2.2.2) := by
  refine ⟨rfl, fun hw hh => ?_⟩
  simp only [detectBoxes, boxOf, transposeRes]
  constructor <;> [linarith; linarith]

/-- Witness for C4 at the raw output `raw attr det = attr + det`, whose
detection 0 has `w = 2 ≥ 0` and `h = 3 ≥ 0`. -/
theorem detect_boxes_corner_form_witness :
    (detectBoxes (transposeRes fun a d => (a : ℚ) + (d : ℚ)) 0).1 ≤
      (detectBoxes (transposeRes fun a d => (a : ℚ) + (d : ℚ)) 0).2.2.1 ∧
    (detectBoxes (transposeRes fun a d => (a : ℚ) + (d : ℚ)) 0).2.1 ≤
      (detectBoxes (transposeRes fun a d => (a : ℚ) + (d : ℚ)) 0).2.2.2 :=
  (detect_boxes_corner_form (fun a d => (a : ℚ) + (d : ℚ)) 0).2
    (by norm_num) (by norm_num)

/-- C2 (code bug): at the failing input — a detection whose flat keypoint
block (attribute indices 5 … 55) holds the values 5 … 55 — the reshape
the source performs, `[-1, 3, 17]`, yields 3 groups of 17 values
(group 0 mixes the x, y and visibility components of keypoints 1–6),
not the 17 contiguous `(x, y, visibility)` triples the claim states;
in particular the produced block differs from the spec's `[17, 3]`
layout, whose first triple is `[5, 6, 7]`. -/
theorem landmarks_reshape_failing_input :
    (landmarksReshaped fun n => (n : ℚ)).map List.length = [17, 17, 17] ∧
    (landmarksSpecReshape fun n => (n : ℚ)).map List.length =
      List.replicate 17 3 ∧
    (landmarksReshaped fun n => (n : ℚ)).head? =
      some [5, 6, 7, 8, 9, 10, 11, 12, 13, 14, 15, 16, 17, 18, 19, 20, 21] ∧
    (landmarksSpecReshape fun n => (n : ℚ)).head? = some [5, 6, 7] ∧
    landmarksReshaped (fun n => (n : ℚ)) ≠
      landmarksSpecReshape fun n => (n : ℚ) := by
  refine ⟨?_, ?_, ?_, ?_, ?_⟩ <;>
    simp [landmarksReshaped, landmarksSpecReshape, landmarksOf,
      List.range_succ] <;>
    norm_num

lemma mem_insertByScore {d c : ℕ × (ℚ × ℚ × ℚ × ℚ) × ℚ}
    {l : List (ℕ × (ℚ × ℚ × ℚ × ℚ) × ℚ)}
    (h : d ∈ insertByScore c l) : d = c ∨ d ∈ l := by
  induction l with
  | nil => simpa [insertByScore] using h
  | cons e es ih =>
      simp only [insertByScore] at h
      by_cases hb : scoreBefore c e
      · rw [if_pos hb] at h
        simpa using h
      · rw [if_neg hb] at h
        rcases List.mem_cons.mp h with h | h
        · exact Or.inr (by simp [h])
        · rcases ih h with h | h
          · exact Or.inl h
          · exact Or.inr (List.mem_cons_of_mem _ h)

lemma mem_sortByScore {d : ℕ × (ℚ × ℚ × ℚ × ℚ) × ℚ}
    {l : List (ℕ × (ℚ × ℚ × ℚ × ℚ) × ℚ)}
    (h : d ∈ sortByScore l) : d ∈ l := by
  induction l with
  | nil => simp [sortByScore] at h
  | cons e es ih =>
      simp only [sortByScore] at h
      rcases mem_insertByScore h with h | h
      · simp [h]
      · exact List.mem_cons_of_mem _ (ih h)

lemma nmsLoop_mem {iouThr : ℚ} {i : ℕ} :
    ∀ {n : ℕ} {l : List (ℕ × (ℚ × ℚ × ℚ × ℚ) × ℚ)},
      i ∈ nmsLoop iouThr n l → ∃ c ∈ l, c.1 = i := by
  intro n
  induction n with
  | zero => intro l h; simp [nmsLoop] at h
  | succ n ih =>
      intro l h
      match l with
      | [] => simp [nmsLoop] at h
      | c :: rest =>
          simp only [nmsLoop, List.mem_cons] at h
          rcases h with h | h
          · exact ⟨c, List.mem_cons_self c rest, h.symm⟩
          · obtain ⟨d, hd, hdi⟩ := ih h
            exact ⟨d, List.mem_cons_of_mem _ (List.mem_filter.mp hd).1, hdi⟩

lemma mem_candidatesOf {c : ℕ × (ℚ × ℚ × ℚ × ℚ) × ℚ}
    {boxes : List (ℚ × ℚ × ℚ × ℚ)} {scores : List ℚ} {scoreThr : ℚ}
    (h : c ∈ candidatesOf boxes scores scoreThr) :
    c.2.2 = scores.getD c.1 0 ∧ scoreThr ≤ c.2.2 := by
  have h' := List.mem_filter.mp h
  obtain ⟨i, -, hi⟩ := List.mem_map.mp h'.1
  refine ⟨?_, by simpa using h'.2⟩
  rw [← hi]

/-- C5: `detect` invokes suppression with the fixed parameters
`maxOutputs = 10`, `iouThreshold = 0.45`, `scoreThreshold = 0.3`; the
score filter is inclusive at the boundary — a lone detection with score
exactly `0.3` is emitted while one with score `0.29` is not — and in
general no detection whose score is below `0.3` is ever emitted. -/
theorem detect_suppress_params_and_boundary :
    (∀ boxes scores, detectSuppress boxes scores =
      nonMaxSuppression boxes scores 10 (45 / 100) (3 / 10)) ∧
    detectSuppress [(0, 0, 10, 10)] [3 / 10] = [0] ∧
    detectSuppress [(0, 0, 10, 10)] [29 / 100] = [] ∧
    (∀ boxes scores i, scores.getD i 0 < 3 / 10 →
      i ∉ detectSuppress boxes scores) := by
  refine ⟨fun _ _ => rfl, ?_, ?_, ?_⟩
  · norm_num [detectSuppress, nonMaxSuppression, candidatesOf, sortByScore,
      insertByScore, nmsLoop, List.range_succ, List.filter_cons,
      decide_eq_true_eq]
  · norm_num [detectSuppress, nonMaxSuppression, candidatesOf, sortByScore,
      insertByScore, nmsLoop, List.range_succ, List.filter_cons,
      decide_eq_true_eq]
  · intro boxes scores i hlt hmem
    obtain ⟨c, hc, hci⟩ := nmsLoop_mem hmem
    have hcand := mem_candidatesOf (mem_sortByScore hc)
    rw [hci] at hcand
    exact absurd (hcand.1 ▸ hcand.2) (not_le.mpr hlt)

/-- Witness for C5: the general below-threshold exclusion applied at a
concrete pool — score `0.29 < 0.3`, so index 0 is not emitted. -/
theorem detect_suppress_params_and_boundary_witness :
    ([(29 : ℚ) / 100].getD 0 0 < 3 / 10) ∧
    0 ∉ detectSuppress [(0, 0, 1, 1)] [29 / 100] :=
  ⟨by norm_num,
    detect_suppress_params_and_boundary.2.2.2 [(0, 0, 1, 1)] [29 / 100] 0
      (by norm_num)⟩

/-- C6: whenever a frame's end timestamp satisfies
`end - lastFpsRefresh ≥ 1000` (and at least one positive-duration frame
was accumulated), `frameStep` publishes
`FPS = ⌊1000 / (inferenceTimeSum / numInferences)⌋` and resets both
accumulators to 0 and `lastFpsRefresh` to `end`; in particular three
detections of 10 ms, 20 ms and 30 ms inside one publish window make
`detectVideo` publish exactly `50`. -/
theorem detectFrame_fps_publish :
    (∀ (s : FpsState) (startT endT : ℚ),
      FPSUpdateMilliseconds ≤ endT - s.lastFpsRefresh →
      0 < s.inferenceTimeSum + (endT - startT) →
      frameStep s startT endT =
        { inferenceTimeSum := 0, numInferences := 0, lastFpsRefresh := endT
          fps := ⌊(1000 : ℚ) /
            ((s.inferenceTimeSum + (endT - startT)) /
              ((s.numInferences : ℚ) + 1))⌋ }) ∧
    detectVideoTrace [(0, 10), (100, 120), (980, 1010)] =
      [VidEv.setFps 0, VidEv.frameDetect, VidEv.frameDetect,
       VidEv.frameDetect, VidEv.setFps 50] := by
  constructor
  · intro s startT endT hpub hsum
    have hnum : (0 : ℚ) < (s.numInferences : ℚ) + 1 := by positivity
    have havg : (0 : ℚ) <
        (s.inferenceTimeSum + (endT - startT)) / ((s.numInferences : ℚ) + 1) :=
      div_pos hsum hnum
    have hq : (0 : ℚ) ≤ (1000 : ℚ) /
        ((s.inferenceTimeSum + (endT - startT)) / ((s.numInferences : ℚ) + 1)) :=
      le_of_lt (div_pos (by norm_num) havg)
    simp only [frameStep, if_pos hpub, parseIntQ]
    rw [if_pos (by push_cast; exact hq)]
    congr 1
    push_cast
    ring_nf
  · norm_num [detectVideoTrace, frameLoop, frameStep, parseIntQ,
      FPSUpdateMilliseconds]

/-- Witness for C6: a single 20 ms frame ending at 1005 ms past the last
publish — the publish fires and writes `⌊1000 / 20⌋ = 50`. -/
theorem detectFrame_fps_publish_witness :
    frameStep ⟨0, 0, 0, 0⟩ 985 1005 = ⟨0, 0, 1005, 50⟩ := by
  have h := detectFrame_fps_publish.1 ⟨0, 0, 0, 0⟩ 985 1005
    (by norm_num [FPSUpdateMilliseconds]) (by norm_num)
  rw [h]
  norm_num

/-- C7: a `detectFrame` tick with `videoWidth = 0` and `srcObject =
null` clears the full canvas and neither runs detection nor schedules a
further tick (the transition is terminal); conversely, whenever a frame
is available (`videoWidth ≠ 0`) or the stream is active (`srcObject ≠
null`), the tick runs the detection pipeline and schedules the next
tick from its completion callback. -/
theorem detectFrame_tick_termination (videoWidth : ℕ)
    (srcObjectIsNull : Bool) (canvasW canvasH : ℕ) :
    (videoWidth = 0 ∧ srcObjectIsNull = true →
      detectFrameTick videoWidth srcObjectIsNull canvasW canvasH =
        [TickEv.clearRect 0 0 canvasW canvasH] ∧
      TickEv.runDetect ∉
        detectFrameTick videoWidth srcObjectIsNull canvasW canvasH ∧
      TickEv.scheduleNext ∉
        detectFrameTick videoWidth srcObjectIsNull canvasW canvasH) ∧
    (videoWidth ≠ 0 ∨ srcObjectIsNull = false →
      TickEv.runDetect ∈
        detectFrameTick videoWidth srcObjectIsNull canvasW canvasH ∧
      TickEv.scheduleNext ∈
        detectFrameTick videoWidth srcObjectIsNull canvasW canvasH) := by
  constructor
  · intro h
    simp [detectFrameTick, h.1, h.2]
  · intro h
    have hcond : ¬ (videoWidth = 0 ∧ srcObjectIsNull = true) := by
      rcases h with h | h
      · exact fun hc => h hc.1
      · exact fun hc => by simp [h] at hc
    simp [detectFrameTick, hcond]

/-- Witness for C7: at `videoWidth = 0`, `srcObject = null` the tick
only clears the 640×640 canvas; at `videoWidth = 2` it runs detection
and schedules the next tick. -/
theorem detectFrame_tick_termination_witness :
    detectFrameTick 0 true 640 640 = [TickEv.clearRect 0 0 640 640] ∧
    TickEv.runDetect ∈ detectFrameTick 2 true 640 640 := by
  refine ⟨(detectFrame_tick_termination 0 true 640 640).1
    ⟨rfl, rfl⟩ |>.1, ?_⟩
  exact ((detectFrame_tick_termination 2 true 640 640).2
    (Or.inl (by norm_num))).1

/-- Counterexample to C9 as stated: when the NMS step throws, the trace
of `detect` opens the engine scope but never reaches `tf.dispose` or
`tf.engine().endScope()` — there is no try/finally, so the error path
does not release the intermediates of the frame. -/
theorem detect_error_path_counterexample :
    DetEv.startScope ∈ detectTrace (some DetEv.nmsEv) ∧
    DetEv.endScope ∉ detectTrace (some DetEv.nmsEv) ∧
    DetEv.disposeEv ∉ detectTrace (some DetEv.nmsEv) := by
  decide

/-- C9 (amended): on the unexceptional path `detect` disposes its
intermediates (`tf.dispose([res, transRes, boxes, scores, nms])`) and
closes the engine scope as its final statement; but on every error path
through decoding or suppression (an exception in the boxes, scores or
landmarks decoding or in the NMS call) neither the dispose nor the
scope close runs, because `detect` has no try/finally. -/
theorem detect_scope_cleanup :
    (detectTrace none).getLast? = some DetEv.endScope ∧
    DetEv.disposeEv ∈ detectTrace none ∧
    DetEv.endScope ∉ detectTrace (some DetEv.boxesEv) ∧
    DetEv.endScope ∉ detectTrace (some DetEv.scoresEv) ∧
    DetEv.endScope ∉ detectTrace (some DetEv.landmarksEv) ∧
    DetEv.endScope ∉ detectTrace (some DetEv.nmsEv) ∧
    DetEv.disposeEv ∉ detectTrace (some DetEv.boxesEv) ∧
    DetEv.disposeEv ∉ detectTrace (some DetEv.nmsEv) := by
  decide

/-- C10: every `detectVideo` run writes `0` to the FPS display exactly
once before the first frame is processed: the prefix of the event trace
before the first frame-processing event is precisely `[setFps 0]`, for
every frame sequence. -/
theorem detectVideo_initial_fps_zero (frames : List (ℚ × ℚ)) :
    (detectVideoTrace frames).takeWhile VidEv.isNotDetect =
      [VidEv.setFps 0] := by
  cases frames with
  | nil => rfl
  | cons f rest =>
      obtain ⟨startT, endT⟩ := f
      simp [detectVideoTrace, frameLoop, List.takeWhile, VidEv.isNotDetect]

/-- Counterexample to C8 as stated: `preprocess` has no error path —
embedded from the source it is a total function with no zero-area
check; applied to a 0×0 frame it returns normally (a degenerate 0×0
padded square, ratios `0/0` — `NaN` in JS, `0` in the rational model —
and a tensor of the usual shape) rather than failing with
`InvalidFrame`. -/
theorem preprocess_zero_area_counterexample :
    (preprocess ⟨0, 0, fun _ _ _ => 0⟩ 4 4).2.1 = 0 ∧
    (preprocess ⟨0, 0, fun _ _ _ => 0⟩ 4 4).2.2 = 0 ∧
    (padToSquare ⟨0, 0, fun _ _ _ => 0⟩).height = 0 ∧
    (padToSquare ⟨0, 0, fun _ _ _ => 0⟩).width = 0 ∧
    (preprocess ⟨0, 0, fun _ _ _ => 0⟩ 4 4).1.shape = [1, 4, 4, 3] := by
  refine ⟨?_, ?_, rfl, rfl, rfl⟩ <;> norm_num [preprocess]

/-- C8 (amended): the source `preprocess` performs no zero-area
rejection: on every frame with `width = 0` or `height = 0` it still
returns the same tuple as on any other frame — the tensor built from
the padded-and-resized image and the ratio formulas `max(w,h)/w`,
`max(w,h)/h` — and no error value exists anywhere in its type. -/
theorem preprocess_zero_area_total (img : Image) (mw mh : ℕ)
    (hz : img.width = 0 ∨ img.height = 0) :
    (preprocess img mw mh).2.1 =
      ((max img.width img.height : ℕ) : ℚ) / (img.width : ℚ) ∧
    (preprocess img mw mh).2.2 =
      ((max img.width img.height : ℕ) : ℚ) / (img.height : ℚ) ∧
    (preprocess img mw mh).1.shape = [1, mw, mh, 3] ∧
    ((preprocess img mw mh).2.1 * (img.width : ℚ) = 0 ∨
      (preprocess img mw mh).2.2 * (img.height : ℚ) = 0) := by
  refine ⟨rfl, rfl, rfl, ?_⟩
  rcases hz with h | h
  · exact Or.inl (by simp [preprocess, h])
  · exact Or.inr (by simp [preprocess, h])

/-- Witness for C8 (amended) at a concrete 5-wide, 0-high frame. -/
theorem preprocess_zero_area_total_witness :
    (preprocess ⟨0, 5, fun _ _ _ => 0⟩ 4 4).2.1 = 1 ∧
    (preprocess ⟨0, 5, fun _ _ _ => 0⟩ 4 4).2.2 = 0 ∧
    (preprocess ⟨0, 5, fun _ _ _ => 0⟩ 4 4).1.shape = [1, 4, 4, 3] := by
  have h := preprocess_zero_area_total ⟨0, 5, fun _ _ _ => 0⟩ 4 4
    (Or.inr rfl)
  refine ⟨?_, ?_, h.2.2.1⟩
  · rw [h.1]; norm_num
  · rw [h.2.1]; norm_num

end YoloPose
